import Mathlib

/-!
Verification development for the ELO PDF import service
(`PDFImportService_Enhanced.js` and the basic variant).

The JavaScript source is shallowly embedded: pure string manipulation is
translated to functions on `List Char`; every remote archive call is an
explicit `Except`-valued outcome supplied by an environment record; the
retry loop becomes structural recursion on the remaining attempt budget.
All definitions are executable so concrete runs can be checked by `decide`.
-/

namespace PDFImport

/-- Strings are modelled as lists of characters, so that the JavaScript /
Java string operations used by the script reduce to transparent list
functions. -/
abbrev Str := List Char

/-- JS `s.startsWith(p)`. -/
def strStartsWith (s p : Str) : Bool := p.isPrefixOf s

/-- JS `s.endsWith(p)`. -/
def strEndsWith (s p : Str) : Bool := p.reverse.isPrefixOf s.reverse

/-- JS `s.indexOf(p) !== -1`: `p` occurs as a contiguous substring of `s`. -/
def strContains (s p : Str) : Bool :=
  match s with
  | [] => p.isEmpty
  | _ :: t => p.isPrefixOf s || strContains t p

/-- JS `s.toLowerCase()`, character by character. -/
def toLowerStr (s : Str) : Str := s.map Char.toLower

/-- The configuration fields of `CONFIG` that the validation and import
functions consult (from the fallback defaults and `config.json` schema). -/
structure Config where
  archivePath : Str
  metadataMask : Str
  maxFileSize : Nat
  allowedExtensions : List Str
  excludePatterns : List Str
  retryAttempts : Nat
deriving Repr, DecidableEq

/-- The fallback `CONFIG` object of `PDFImportService_Enhanced.js`
(lines 41-55). -/
def defaultConfig : Config :=
  { archivePath := "¶Eingangsrechnungen".toList
  , metadataMask := "Eingangsrechnung".toList
  , maxFileSize := 50 * 1024 * 1024
  , allowedExtensions := [".pdf".toList]
  , excludePatterns := ["temp_*".toList, ".*".toList]
  , retryAttempts := 3 }

/-- Observable facts about one candidate file, as the validation code reads
them from `java.io.File`: name, existence/readability, length, and the
outcome of reading the first (up to 5) bytes — `none` when the header read
throws an exception, `some bs` when `bs` bytes were read. -/
structure FileInfo where
  name : Str
  fileExists : Bool
  canRead : Bool
  size : Nat
  headerBytes : Option Str
deriving Repr, DecidableEq

/-- One iteration of the exclude-pattern loop of `validatePDFFile`
(lines 371-385): a pattern starting with `*` rejects when the lower-cased
filename ends with the rest of the pattern; a pattern ending with `*`
rejects when the filename starts with the pattern minus its last character;
and — unconditionally, for every pattern — literal substring containment
(`fileName.indexOf(pattern) !== -1`) also rejects. -/
def excludeMatches (fileName pattern : Str) : Bool :=
  (strStartsWith pattern ['*'] && strEndsWith fileName (pattern.drop 1))
  || (strEndsWith pattern ['*']
        && strStartsWith fileName (pattern.take (pattern.length - 1)))
  || strContains fileName pattern

/-- The whole exclude-pattern loop: the first matching pattern rejects. -/
def isExcluded (fileName : Str) (patterns : List Str) : Bool :=
  patterns.any (fun p => excludeMatches fileName p)

/-- The pattern semantics as the specification words them (§4.2 check 5):
suffix form `*X` matches iff the filename ends with `X`, prefix form `X*`
matches iff the filename starts with `X`, and plain substring containment
is tested only for patterns containing no wildcard. Written from the
spec's words for comparison with `excludeMatches`, which is translated
from the source. -/
def specExcludeMatches (fileName pattern : Str) : Bool :=
  (strStartsWith pattern ['*'] && strEndsWith fileName (pattern.drop 1))
  || (strEndsWith pattern ['*']
        && strStartsWith fileName (pattern.take (pattern.length - 1)))
  || (!pattern.contains '*' && strContains fileName pattern)

/-- The spec-worded exclusion check over a pattern list. -/
def specIsExcluded (fileName : Str) (patterns : List Str) : Bool :=
  patterns.any (fun p => specExcludeMatches fileName p)

/-- Function `validatePDFFile` (lines 335-413): existence/readability, non-zero
size, maximum size, allowed extension (on the lower-cased name), exclusion
patterns, then the `%PDF` header check. When the header read threw
(`headerBytes = none`) the failure is only warned about and validation
continues; when at least 4 bytes were read they must equal `%PDF`. -/
def validatePDFFile (cfg : Config) (f : FileInfo) : Bool :=
  if !(f.fileExists && f.canRead) then false
  else if f.size == 0 then false
  else if f.size > cfg.maxFileSize then false
  else
    let fileName := toLowerStr f.name
    if !(cfg.allowedExtensions.any fun e => strEndsWith fileName (toLowerStr e))
      then false
    else if isExcluded fileName cfg.excludePatterns then false
    else
      match f.headerBytes with
      | none => true
      | some bs =>
        if 4 ≤ bs.length then
          if bs.take 4 == "%PDF".toList then true else false
        else true

/-- Concrete invalid-header file used to exercise the validator: a readable,
non-empty, correctly named `.pdf` file whose first bytes are `XPDF!`. -/
def badHeaderFile : FileInfo :=
  { name := "bad.pdf".toList, fileExists := true, canRead := true
  , size := 1000, headerBytes := some "XPDF!".toList }

/-- C6: claimed and actual exclusion semantics disagree. The claim says
substring containment is tested only for wildcard-free patterns, so the
file `a*x.pdf` is not excluded by the pattern `*x` (it does not end with
`x`); the code tests `indexOf` for every pattern and rejects it. -/
theorem c6_counterexample :
    isExcluded "a*x.pdf".toList ["*x".toList] = true
    ∧ specIsExcluded "a*x.pdf".toList ["*x".toList] = false
    ∧ strEndsWith "a*x.pdf".toList ("*x".toList.drop 1) = false := by
  decide

/-- C6 (amended): the exclusion check rejects exactly when some configured
pattern matches, where a pattern matches iff it starts with `*` and the
lower-cased filename ends with the rest of it, or it ends with `*` and the
filename starts with it minus its final character, or the filename contains
the pattern literally as a substring — the containment test is applied to
every pattern, wildcard or not. Order of patterns only selects which match
fires first and does not change the verdict. -/
theorem c6_exclusion_semantics (fileName : Str) (patterns : List Str) :
    isExcluded fileName patterns = true ↔
      ∃ p ∈ patterns,
        (strStartsWith p ['*'] = true ∧ strEndsWith fileName (p.drop 1) = true)
        ∨ (strEndsWith p ['*'] = true
            ∧ strStartsWith fileName (p.take (p.length - 1)) = true)
        ∨ strContains fileName p = true := by
  simp only [isExcluded, excludeMatches, List.any_eq_true, Bool.or_eq_true,
    Bool.and_eq_true]
  exact exists_congr fun p => by tauto

/-- C5: a well-formed `.pdf` file whose readable header is `XPDF` (not
`%PDF`) passes every earlier check yet is rejected by `validatePDFFile` —
refuting the claim that the content-signature check only warns. Flipping
only the header bytes to `%PDF-` makes validation pass, so the header check
is decisive. -/
theorem c5_counterexample :
    (badHeaderFile.fileExists && badHeaderFile.canRead) = true
    ∧ badHeaderFile.size ≠ 0
    ∧ badHeaderFile.size ≤ defaultConfig.maxFileSize
    ∧ (defaultConfig.allowedExtensions.any fun e =>
        strEndsWith (toLowerStr badHeaderFile.name) (toLowerStr e)) = true
    ∧ isExcluded (toLowerStr badHeaderFile.name)
        defaultConfig.excludePatterns = false
    ∧ badHeaderFile.headerBytes = some "XPDF!".toList
    ∧ "XPDF!".toList.take 4 ≠ "%PDF".toList
    ∧ validatePDFFile defaultConfig badHeaderFile = false
    ∧ validatePDFFile defaultConfig
        { badHeaderFile with headerBytes := some "%PDF-".toList } = true := by
  decide

/-- C5 (amended): for a file passing the earlier checks, the header check
only warns — validation passes — exactly when the header read throws or
fewer than 4 bytes are readable; when at least 4 bytes are read and they
differ from `%PDF`, validation fails and the file does not enter
the ingestion pipeline. -/
theorem c5_header_check (cfg : Config) (f : FileInfo)
    (h1 : f.fileExists = true) (h2 : f.canRead = true) (h3 : f.size ≠ 0)
    (h4 : f.size ≤ cfg.maxFileSize)
    (h5 : (cfg.allowedExtensions.any fun e =>
        strEndsWith (toLowerStr f.name) (toLowerStr e)) = true)
    (h6 : isExcluded (toLowerStr f.name) cfg.excludePatterns = false) :
    (f.headerBytes = none → validatePDFFile cfg f = true)
    ∧ (∀ bs, f.headerBytes = some bs → bs.length < 4 →
        validatePDFFile cfg f = true)
    ∧ (∀ bs, f.headerBytes = some bs → 4 ≤ bs.length →
        bs.take 4 ≠ "%PDF".toList → validatePDFFile cfg f = false) := by
  have h4' : ¬ f.size > cfg.maxFileSize := by omega
  refine ⟨?_, ?_, ?_⟩
  · intro hb
    simp [validatePDFFile, h1, h2, h3, h4', h5, h6, hb]
  · intro bs hb hlen
    have : ¬ (4 ≤ bs.length) := by omega
    simp [validatePDFFile, h1, h2, h3, h4', h5, h6, hb, this]
  · intro bs hb hlen hne
    have hne' : ¬ List.take 4 bs = ['%', 'P', 'D', 'F'] :=
      fun h => hne (h.trans (by decide))
    simp [validatePDFFile, h1, h2, h3, h4', h5, h6, hb, hlen, hne']

/-- Witness for `c5_header_check` at the concrete invalid-header file. -/
theorem c5_header_check_witness :
    validatePDFFile defaultConfig badHeaderFile = false :=
  (c5_header_check defaultConfig badHeaderFile rfl rfl (by decide) (by decide)
      (by decide) (by decide)).2.2
    "XPDF!".toList rfl (by decide) (by decide)

/-- Java `fileName.lastIndexOf('.')`, as an `Option` index: the position of
the last dot, `none` when there is no dot (Java would return `-1`). -/
def lastIndexOfDotAux : Str → Nat → Option Nat
  | [], _ => none
  | c :: t, i =>
    match lastIndexOfDotAux t (i + 1) with
    | some j => some j
    | none => if c == '.' then some i else none

/-- See `lastIndexOfDotAux`. -/
def lastIndexOfDot (s : Str) : Option Nat := lastIndexOfDotAux s 0

/-- Function `moveFile` (lines 607-629): the name within `targetDir` that the rename
targets, as a function of the set of names already present there. If
`fileName` is free it is used unchanged; otherwise the timestamp is
inserted before the extension (`baseName + "_" + timestamp + extension`,
where `extension` starts at the last dot and includes it). The timestamped
candidate is not checked against the directory again. `none` models the
`StringIndexOutOfBoundsException` that `substring(0, -1)` would throw for a
dotless name (unreachable for files that passed extension validation). -/
def moveFile (existing : List Str) (fileName : Str) (timestamp : Nat) :
    Option Str :=
  if existing.contains fileName then
    match lastIndexOfDot fileName with
    | none => none
    | some i =>
      some (fileName.take i ++ ('_' :: (Nat.repr timestamp).toList)
              ++ fileName.drop i)
  else some fileName

/-- C4: the collision-resolved name can itself collide. With `a.pdf` and
`a_5.pdf` already in the target directory, moving another `a.pdf` at epoch
time 5 targets `a_5.pdf`, which is not distinct from the existing files —
the rename lands on an occupied path (overwriting it or failing,
depending on the platform), refuting "always completes to a distinct
path". -/
theorem c4_counterexample :
    moveFile ["a.pdf".toList, "a_5.pdf".toList] "a.pdf".toList 5
      = some "a_5.pdf".toList
    ∧ ["a.pdf".toList, "a_5.pdf".toList].contains "a_5.pdf".toList = true := by
  decide

/-- C4 (amended): when `targetDir/fileName` is occupied, the move targets
`basename_<epochMillis>.ext`; that path differs from the original name and
is distinct from every existing file provided no file of that timestamped
name is already present in the target directory. -/
theorem c4_move_collision_naming (existing : List Str) (fileName : Str)
    (ts i : Nat) (hdot : lastIndexOfDot fileName = some i)
    (hexist : existing.contains fileName = true)
    (hfresh : existing.contains
        (fileName.take i ++ ('_' :: (Nat.repr ts).toList)
          ++ fileName.drop i) = false) :
    moveFile existing fileName ts
      = some (fileName.take i ++ ('_' :: (Nat.repr ts).toList)
                ++ fileName.drop i)
    ∧ existing.contains
        (fileName.take i ++ ('_' :: (Nat.repr ts).toList)
          ++ fileName.drop i) = false
    ∧ fileName.take i ++ ('_' :: (Nat.repr ts).toList) ++ fileName.drop i
        ≠ fileName := by
  have hmem : fileName ∈ existing := by simpa using hexist
  refine ⟨by simp [moveFile, hmem, hdot], hfresh, fun h => ?_⟩
  have hlen := congrArg List.length h
  have hsplit : (fileName.take i).length + (fileName.drop i).length
      = fileName.length := by
    rw [← List.length_append, List.take_append_drop]
  simp [List.length_append] at hlen
  omega

/-- Witness for `c4_move_collision_naming`: a fresh timestamp yields a
fresh name. -/
theorem c4_move_collision_naming_witness :
    moveFile ["a.pdf".toList, "a_5.pdf".toList] "a.pdf".toList 7
      = some "a_7.pdf".toList := by
  have h := c4_move_collision_naming ["a.pdf".toList, "a_5.pdf".toList]
    "a.pdf".toList 7 1 (by decide) (by decide) (by decide)
  exact h.1

/-- An archived folder (`Sord` of type `LBT_FOLDER`): display name and the
identity the archive assigned at check-in. -/
structure Folder where
  name : Str
  id : Nat
deriving DecidableEq

/-- The archive's folder store across cycles: the folders present and the
next identity `checkinSord` will assign. -/
structure ArchiveState where
  folders : List Folder
  nextId : Nat
deriving DecidableEq

/-- The call `findFirstSords` with `findByIndex.name` set: per the archive client
boundary (find-container-by-name), returns the first stored folder whose
display name equals the searched name. -/
def findFirstSordsByName (st : ArchiveState) (nm : Str) : Option Folder :=
  st.folders.find? (fun f => f.name == nm)

/-- Function `getOrCreateArchiveFolder` (lines 527-556): search for
`CONFIG.ARCHIVE_PATH` by name; if found return its id; otherwise create a
folder whose name is `CONFIG.ARCHIVE_PATH.substring(1)` (the leading `¶`
marker stripped) and return the new id. Returns the resolved id and the
archive state after the call. -/
def getOrCreateArchiveFolder (archivePath : Str) (st : ArchiveState) :
    Nat × ArchiveState :=
  match findFirstSordsByName st archivePath with
  | some f => (f.id, st)
  | none =>
    let created : Folder := { name := archivePath.drop 1, id := st.nextId }
    (st.nextId, { folders := st.folders ++ [created], nextId := st.nextId + 1 })

/-- C1: the folder is created under the name with the marker stripped
(`Eingangsrechnungen`) while every later search looks for the full
configured path (`¶Eingangsrechnungen`), so the search never finds the
folder the previous cycle created: the second cycle creates a second
container for the same configured path, and the two cycles resolve to
different container identities. -/
theorem c1_container_recreated_each_cycle :
    (getOrCreateArchiveFolder "¶Eingangsrechnungen".toList
        { folders := [], nextId := 5 }).2.folders.map Folder.name
      = ["Eingangsrechnungen".toList]
    ∧ findFirstSordsByName
        (getOrCreateArchiveFolder "¶Eingangsrechnungen".toList
          { folders := [], nextId := 5 }).2
        "¶Eingangsrechnungen".toList = none
    ∧ (getOrCreateArchiveFolder "¶Eingangsrechnungen".toList
        (getOrCreateArchiveFolder "¶Eingangsrechnungen".toList
          { folders := [], nextId := 5 }).2).2.folders.length = 2
    ∧ (getOrCreateArchiveFolder "¶Eingangsrechnungen".toList
        (getOrCreateArchiveFolder "¶Eingangsrechnungen".toList
          { folders := [], nextId := 5 }).2).1
      ≠ (getOrCreateArchiveFolder "¶Eingangsrechnungen".toList
          { folders := [], nextId := 5 }).1 := by
  decide

/-- Archive-visible actions performed by one import attempt, in order:
the mask identity written to the draft (if any), the committed record
(check-in succeeded), the compensating `deleteSord` call, and the warning
logged when that delete itself fails. -/
inductive Action where
  | maskSet : Option Nat → Action
  | checkinDone : Nat → Action
  | deleteAttempt : Nat → Action
  | deleteFailedWarn : Action
deriving DecidableEq

/-- Equality of modelled remote-call outcomes is decidable, so concrete
runs can be checked by `decide`. -/
instance exceptDecEq {ε α : Type} [DecidableEq ε] [DecidableEq α] :
    DecidableEq (Except ε α) := fun x y =>
  match x, y with
  | .error a, .error b =>
    if h : a = b then .isTrue (by rw [h])
    else .isFalse (fun hh => by cases hh; exact h rfl)
  | .error _, .ok _ => .isFalse (fun hh => by cases hh)
  | .ok _, .error _ => .isFalse (fun hh => by cases hh)
  | .ok a, .ok b =>
    if h : a = b then .isTrue (by rw [h])
    else .isFalse (fun hh => by cases hh; exact h rfl)

/-- Outcomes of the remote calls inside `uploadPDFFile` (lines 256-287):
`checkinDocBegin`, `readFileInChunks` (`none` when reading threw and the
function returned `null`), the `upload` call (which can throw or return a
falsy result), and `checkinDocEnd`. -/
structure UploadEnv where
  checkinDocBegin : Except String Unit
  fileData : Option (List Nat)
  uploadCall : Except String Bool
  checkinDocEnd : Except String Unit
deriving DecidableEq

/-- Function `uploadPDFFile` (lines 256-287): all internal failures — a thrown
exception from any call, unreadable file data, or a falsy upload result —
are caught by the surrounding `try` and reported as `false`; `true` only
after `checkinDocEnd` succeeds. -/
def uploadPDFFile (e : UploadEnv) : Bool :=
  match e.checkinDocBegin with
  | .error _ => false
  | .ok _ =>
    match e.fileData with
    | none => false
    | some _ =>
      match e.uploadCall with
      | .error _ => false
      | .ok false => false
      | .ok true =>
        match e.checkinDocEnd with
        | .error _ => false
        | .ok _ => true

/-- Outcomes of the remote calls of one attempt of
`importFileToELOWithValidation`: folder resolution, `createSord`,
`checkoutDocMasks` (the whole mask list, or the exception it threw),
`setCustomMetadata` (whose failure is caught and only warned about), the
metadata check-in (returning the new record id), the upload environment,
and whether the compensating `deleteSord` would succeed. -/
structure AttemptEnv where
  folderResult : Except String Nat
  createSord : Except String Unit
  docMasks : Except String (List (Nat × Str))
  customMetadataOk : Bool
  checkin : Except String Nat
  upload : UploadEnv
  deleteOk : Bool
deriving DecidableEq

/-- Function `getMaskId` (lines 558-576): looks the mask name up in the checked-out
mask list; returns `null` both when the name is not found (warned) and when
`checkoutDocMasks` throws (the exception is caught and logged — never
re-raised). -/
def getMaskId (docMasks : Except String (List (Nat × Str)))
    (maskName : Str) : Option Nat :=
  match docMasks with
  | .error _ => none
  | .ok masks =>
    match masks.find? (fun m => m.2 == maskName) with
    | some m => some m.1
    | none => none

/-- Function `importFileToELOWithValidation` (lines 190-248): validate, resolve the
archive folder, create a draft record, resolve the mask (`sord.mask` is
assigned only for a truthy mask id), check the draft in, then upload; on a
failed upload attempt the compensating `deleteSord` (its own failure only
logged) and raise `File upload failed`. Result: the thrown error or the
committed record id, plus the archive-visible action trace. -/
def importFileToELOWithValidation (cfg : Config) (f : FileInfo)
    (env : AttemptEnv) : Except String Nat × List Action :=
  if validatePDFFile cfg f = false then (.error "File validation failed", [])
  else
    match env.folderResult with
    | .error e => (.error e, [])
    | .ok _parentId =>
      match env.createSord with
      | .error e => (.error e, [])
      | .ok _ =>
        let maskAssigned : Option Nat :=
          match getMaskId env.docMasks cfg.metadataMask with
          | some m => if m ≠ 0 then some m else none
          | none => none
        match env.checkin with
        | .error e => (.error e, [Action.maskSet maskAssigned])
        | .ok sordId =>
          if uploadPDFFile env.upload then
            (.ok sordId, [Action.maskSet maskAssigned,
              Action.checkinDone sordId])
          else
            (.error "File upload failed",
              [Action.maskSet maskAssigned, Action.checkinDone sordId,
                Action.deleteAttempt sordId]
              ++ (if env.deleteOk then [] else [Action.deleteFailedWarn]))

/-- C3: once the metadata check-in has committed the record, a failed
upload makes the attempt raise `File upload failed` (it never returns a
record id), after attempting the compensating delete of exactly that
record; when the delete itself fails, only a warning is traced and the
result is unchanged. -/
theorem c3_upload_failure_compensated (cfg : Config) (f : FileInfo)
    (env : AttemptEnv) (pid sid : Nat)
    (hv : validatePDFFile cfg f = true)
    (hf : env.folderResult = .ok pid)
    (hc : env.createSord = .ok ())
    (hk : env.checkin = .ok sid)
    (hu : uploadPDFFile env.upload = false) :
    (importFileToELOWithValidation cfg f env).1 = .error "File upload failed"
    ∧ Action.deleteAttempt sid ∈ (importFileToELOWithValidation cfg f env).2
    ∧ (env.deleteOk = false →
        Action.deleteFailedWarn ∈ (importFileToELOWithValidation cfg f env).2) := by
  refine ⟨?_, ?_, ?_⟩ <;>
    simp [importFileToELOWithValidation, hv, hf, hc, hk, hu]

/-- The `ok`-everywhere remote environment: folder found, draft created,
mask list delivered and containing the configured mask, check-in yields
record id 42, upload succeeds, delete would succeed. -/
def okEnv : AttemptEnv :=
  { folderResult := .ok 1
  , createSord := .ok ()
  , docMasks := .ok [(7, "Eingangsrechnung".toList)]
  , customMetadataOk := true
  , checkin := .ok 42
  , upload := { checkinDocBegin := .ok (), fileData := some [37, 80, 68, 70]
              , uploadCall := .ok true, checkinDocEnd := .ok () }
  , deleteOk := true }

/-- A valid 10KB invoice file whose content starts with `%PDF`. -/
def goodFile : FileInfo :=
  { name := "invoice1.pdf".toList, fileExists := true, canRead := true
  , size := 10240, headerBytes := some "%PDF-".toList }

/-- Witness for `c3_upload_failure_compensated`: upload call throws and the
compensating delete also fails. -/
theorem c3_upload_failure_compensated_witness :
    (importFileToELOWithValidation defaultConfig goodFile
        { okEnv with
            upload := { okEnv.upload with uploadCall := .error "timeout" }
          , deleteOk := false }).1 = .error "File upload failed"
    ∧ Action.deleteAttempt 42 ∈ (importFileToELOWithValidation defaultConfig
        goodFile
        { okEnv with
            upload := { okEnv.upload with uploadCall := .error "timeout" }
          , deleteOk := false }).2
    ∧ Action.deleteFailedWarn ∈ (importFileToELOWithValidation defaultConfig
        goodFile
        { okEnv with
            upload := { okEnv.upload with uploadCall := .error "timeout" }
          , deleteOk := false }).2 := by
  have h := c3_upload_failure_compensated defaultConfig goodFile
    { okEnv with
        upload := { okEnv.upload with uploadCall := .error "timeout" }
      , deleteOk := false }
    1 42 (by decide) rfl rfl rfl rfl
  exact ⟨h.1, h.2.1, h.2.2 rfl⟩

/-- The all-ok environment with the mask lookup failing with a
connectivity error. -/
def maskDownEnv : AttemptEnv :=
  { okEnv with docMasks := .error "connection refused" }

/-- C8: a connectivity error thrown by `checkoutDocMasks` during the mask
lookup is absorbed inside `getMaskId` (which returns `null`): the attempt
proceeds without a mask and still returns record id 42 — refuting "no
connectivity error during an attempt is absorbed so that the attempt
proceeds and can still succeed". -/
theorem c8_counterexample :
    maskDownEnv.docMasks = .error "connection refused"
    ∧ getMaskId maskDownEnv.docMasks defaultConfig.metadataMask = none
    ∧ (importFileToELOWithValidation defaultConfig goodFile maskDownEnv).1
        = .ok 42 := by
  decide

/-- C8 (amended): connectivity errors in the container resolution, the
draft-record creation, or the metadata check-in abort the attempt with
that error; but an error thrown during the mask lookup is caught inside
`getMaskId`, logged, and the attempt proceeds — without a mask bound — and
can still succeed. -/
theorem c8_connectivity (cfg : Config) (f : FileInfo) (env : AttemptEnv)
    (e : String) (hv : validatePDFFile cfg f = true) :
    (env.folderResult = .error e →
      (importFileToELOWithValidation cfg f env).1 = .error e)
    ∧ (∀ pid, env.folderResult = .ok pid → env.createSord = .error e →
        (importFileToELOWithValidation cfg f env).1 = .error e)
    ∧ (∀ pid, env.folderResult = .ok pid → env.createSord = .ok () →
        env.checkin = .error e →
        (importFileToELOWithValidation cfg f env).1 = .error e)
    ∧ (∀ pid sid, env.docMasks = .error e → env.folderResult = .ok pid →
        env.createSord = .ok () → env.checkin = .ok sid →
        uploadPDFFile env.upload = true →
        (importFileToELOWithValidation cfg f env).1 = .ok sid) := by
  refine ⟨fun hf => ?_, fun pid hf hc => ?_, fun pid hf hc hk => ?_,
    fun pid sid hm hf hc hk hu => ?_⟩ <;>
    simp [importFileToELOWithValidation, hv, *]

/-- Witness for `c8_connectivity` at the concrete environment whose mask
lookup is down. -/
theorem c8_connectivity_witness :
    (importFileToELOWithValidation defaultConfig goodFile maskDownEnv).1
      = .ok 42 :=
  (c8_connectivity defaultConfig goodFile maskDownEnv "connection refused"
      (by decide)).2.2.2 1 42 rfl rfl rfl rfl (by decide)

/-- Function `startWorkflowWithRetry` (lines 293-328): two bounded attempts
(`maxAttempts = 2`), a fixed 2000ms sleep between them, the second
failure re-thrown. `wf k` tells whether attempt `k` of the workflow start
sequence succeeds; the result is the surfaced outcome together with the
sleeps performed. -/
def startWorkflowWithRetry (wf : Nat → Bool) : Except String Unit × List Nat :=
  if wf 1 then (.ok (), [])
  else if wf 2 then (.ok (), [2000])
  else (.error "workflow start failed", [2000])

/-- The truthiness test `if (sordId)` applied to the import result: the
attempt counts as successful only for a non-falsy record id (line 149);
a falsy id triggers `throw new Error("Failed to import file to ELO")`. -/
def importGood : Except String Nat → Bool
  | .ok sordId => sordId != 0
  | .error _ => false

/-- The terminal location the Lifecycle Mover is handed the file for. -/
inductive Dir where
  | processedDir
  | errorDir
deriving DecidableEq

/-- Observable outcome of `processSinglePDFWithRetry` for one file: the
returned success flag, which directory the file is moved towards, the
backoff sleeps performed by the outer retry loop (in ms, in order), and —
when the import succeeded — whether the absorbed workflow start
succeeded. -/
structure ProcessResult where
  success : Bool
  movedTo : Dir
  sleeps : List Nat
  wfOk : Option Bool
deriving DecidableEq

/-- Whether a surfaced workflow outcome is a success. -/
def exceptIsOk : Except String Unit → Bool
  | .ok _ => true
  | .error _ => false

/-- The `while (attempts < CONFIG.RETRY_ATTEMPTS)` loop of
`processSinglePDFWithRetry` (lines 137-183), by recursion on the remaining
attempt budget (`fuel = R - attempts`): attempt `attempts + 1` runs the
transaction; on a truthy record id the workflow trigger runs inside its
own `try/catch` (its failure only warned about) and the file goes to the
processed directory; on failure with attempts remaining sleep
`2^attempts * 1000` ms and retry; after the final attempt the file goes to
the error directory. -/
def processGo (R : Nat) (cfg : Config) (f : FileInfo) (env : Nat → AttemptEnv)
    (wf : Nat → Bool) : Nat → Nat → ProcessResult
  | 0, _ => { success := false, movedTo := .errorDir, sleeps := [], wfOk := none }
  | fuel + 1, attempts =>
    if importGood (importFileToELOWithValidation cfg f (env (attempts + 1))).1
    then
      { success := true, movedTo := .processedDir, sleeps := []
      , wfOk := some (exceptIsOk (startWorkflowWithRetry wf).1) }
    else if attempts + 1 < R then
      let r := processGo R cfg f env wf fuel (attempts + 1)
      { r with sleeps := 2 ^ (attempts + 1) * 1000 :: r.sleeps }
    else
      { success := false, movedTo := .errorDir, sleeps := [], wfOk := none }

/-- Function `processSinglePDFWithRetry` (lines 137-183): the loop started with
`attempts = 0` and the configured retry budget. -/
def processSinglePDFWithRetry (cfg : Config) (f : FileInfo)
    (env : Nat → AttemptEnv) (wf : Nat → Bool) : ProcessResult :=
  processGo cfg.retryAttempts cfg f env wf cfg.retryAttempts 0

/-- One unfolding step of the retry loop. -/
theorem processGo_succ (R : Nat) (cfg : Config) (f : FileInfo)
    (env : Nat → AttemptEnv) (wf : Nat → Bool) (fuel attempts : Nat) :
    processGo R cfg f env wf (fuel + 1) attempts =
      if importGood (importFileToELOWithValidation cfg f (env (attempts + 1))).1
      then
        { success := true, movedTo := .processedDir, sleeps := []
        , wfOk := some (exceptIsOk (startWorkflowWithRetry wf).1) }
      else if attempts + 1 < R then
        { success := (processGo R cfg f env wf fuel (attempts + 1)).success
        , movedTo := (processGo R cfg f env wf fuel (attempts + 1)).movedTo
        , sleeps := 2 ^ (attempts + 1) * 1000
            :: (processGo R cfg f env wf fuel (attempts + 1)).sleeps
        , wfOk := (processGo R cfg f env wf fuel (attempts + 1)).wfOk }
      else
        { success := false, movedTo := .errorDir, sleeps := [], wfOk := none }
      := rfl

/-- Re-indexing of the backoff-sleep list when one sleep is prepended. -/
theorem range_map_pow_shift (m a : Nat) :
    (2 ^ (a + 1) * 1000)
        :: (List.range m).map (fun i => 2 ^ (a + 1 + 1 + i) * 1000)
      = (List.range (m + 1)).map (fun i => 2 ^ (a + 1 + i) * 1000) := by
  rw [List.range_succ_eq_map, List.map_cons, List.map_map]
  refine congrArg₂ List.cons (by rw [Nat.add_zero]) ?_
  refine List.map_congr_left fun i _ => ?_
  simp only [Function.comp_apply]
  rw [show a + 1 + 1 + i = a + 1 + (i + 1) by omega]

/-- The success flag, target directory and outer sleeps of the retry loop
do not depend on the workflow outcomes: the workflow call is wrapped in a
`try/catch` whose failure is only warned about. -/
theorem processGo_wf_irrelevant (R : Nat) (cfg : Config) (f : FileInfo)
    (env : Nat → AttemptEnv) (wf wg : Nat → Bool) :
    ∀ fuel attempts,
      (processGo R cfg f env wf fuel attempts).success
        = (processGo R cfg f env wg fuel attempts).success
      ∧ (processGo R cfg f env wf fuel attempts).movedTo
        = (processGo R cfg f env wg fuel attempts).movedTo
      ∧ (processGo R cfg f env wf fuel attempts).sleeps
        = (processGo R cfg f env wg fuel attempts).sleeps := by
  intro fuel
  induction fuel with
  | zero => intro attempts; simp [processGo]
  | succ n ih =>
    intro attempts
    cases hg : importGood
        (importFileToELOWithValidation cfg f (env (attempts + 1))).1 with
    | true => simp [processGo, hg]
    | false =>
      by_cases h2 : attempts + 1 < R
      · have h := ih (attempts + 1)
        simp [processGo, hg, h2, h.1, h.2.1, h.2.2]
      · simp [processGo, hg, h2]

/-- A successful loop outcome always hands the file to the processed
directory. -/
theorem processGo_success_processed (R : Nat) (cfg : Config) (f : FileInfo)
    (env : Nat → AttemptEnv) (wf : Nat → Bool) :
    ∀ fuel attempts,
      (processGo R cfg f env wf fuel attempts).success = true →
      (processGo R cfg f env wf fuel attempts).movedTo = Dir.processedDir := by
  intro fuel
  induction fuel with
  | zero => intro attempts h; simp [processGo] at h
  | succ n ih =>
    intro attempts
    cases hg : importGood
        (importFileToELOWithValidation cfg f (env (attempts + 1))).1 with
    | true => simp [processGo, hg]
    | false =>
      by_cases h2 : attempts + 1 < R
      · intro h
        have := ih (attempts + 1)
        simp [processGo, hg, h2] at h ⊢
        exact this h
      · simp [processGo, hg, h2]

/-- When every attempt's transaction fails, the loop performs exactly the
exponential-backoff sleeps `2^(attempts+1) * 1000, …` between consecutive
attempts, returns failure, and hands the file to the error directory. -/
theorem processGo_allFail (R : Nat) (cfg : Config) (f : FileInfo)
    (env : Nat → AttemptEnv) (wf : Nat → Bool)
    (h : ∀ k, importGood (importFileToELOWithValidation cfg f (env k)).1
          = false) :
    ∀ fuel attempts, fuel + attempts = R →
      processGo R cfg f env wf fuel attempts =
        { success := false, movedTo := .errorDir, wfOk := none
        , sleeps := (List.range (fuel - 1)).map
            (fun i => 2 ^ (attempts + 1 + i) * 1000) } := by
  intro fuel
  induction fuel with
  | zero => intro a _; simp [processGo]
  | succ n ih =>
    intro a ha
    have hg := h (a + 1)
    cases n with
    | zero =>
      have hlt : ¬ (a + 1 < R) := by omega
      simp [processGo, hg, hlt]
    | succ m =>
      have h2 : a + 1 < R := by omega
      have hrec := ih (a + 1) (by omega)
      rw [processGo_succ, hg, if_neg Bool.false_ne_true, if_pos h2, hrec]
      simp only [Nat.add_sub_cancel]
      exact congrArg (fun s => ProcessResult.mk false Dir.errorDir s none)
        (range_map_pow_shift m a)

/-- Closed form of the total backoff: the sleeps `2^1·1000, …, 2^n·1000`
add up to `1000 · Σ_{k=1}^{n} 2^k`. -/
theorem sleeps_sum_eq (n : Nat) :
    ((List.range n).map (fun i => 2 ^ (i + 1) * 1000)).sum
      = 1000 * ∑ k ∈ Finset.Icc 1 n, 2 ^ k := by
  induction n with
  | zero => simp
  | succ m ih =>
    rw [List.range_succ, List.map_append, List.sum_append,
      Finset.sum_Icc_succ_top (by omega : 1 ≤ m + 1), ih]
    simp
    ring

/-- C2: after a failed attempt `k = attempts + 1` with attempts remaining,
the loop sleeps exactly `2^k` time units (of 1000 ms) before attempt
`k + 1`; the final attempt is followed by no sleep; and a file failing all
`R = cfg.retryAttempts` attempts accumulates exactly
`1000 · Σ_{k=1}^{R-1} 2^k` ms of backoff. -/
theorem c2_exponential_backoff (cfg : Config) (f : FileInfo)
    (env : Nat → AttemptEnv) (wf : Nat → Bool) :
    (∀ attempts fuel,
      importGood (importFileToELOWithValidation cfg f
          (env (attempts + 1))).1 = false →
      attempts + 1 < cfg.retryAttempts →
      (processGo cfg.retryAttempts cfg f env wf (fuel + 1) attempts).sleeps
        = 2 ^ (attempts + 1) * 1000
          :: (processGo cfg.retryAttempts cfg f env wf fuel
                (attempts + 1)).sleeps)
    ∧ (∀ attempts, attempts + 1 = cfg.retryAttempts →
        (processGo cfg.retryAttempts cfg f env wf 1 attempts).sleeps = [])
    ∧ ((∀ k, importGood (importFileToELOWithValidation cfg f (env k)).1
          = false) →
        (processSinglePDFWithRetry cfg f env wf).sleeps
            = (List.range (cfg.retryAttempts - 1)).map
                (fun i => 2 ^ (i + 1) * 1000)
        ∧ (processSinglePDFWithRetry cfg f env wf).sleeps.sum
            = 1000 * ∑ k ∈ Finset.Icc 1 (cfg.retryAttempts - 1), 2 ^ k) := by
  refine ⟨?_, ?_, ?_⟩
  · intro a fuel hg h2
    rw [processGo_succ, hg, if_neg Bool.false_ne_true, if_pos h2]
  · intro a ha
    cases hg : importGood
        (importFileToELOWithValidation cfg f (env (a + 1))).1 with
    | true => rw [processGo_succ, hg, if_pos rfl]
    | false =>
      rw [processGo_succ, hg, if_neg Bool.false_ne_true,
        if_neg (by omega : ¬ a + 1 < cfg.retryAttempts)]
  · intro hall
    have h := processGo_allFail cfg.retryAttempts cfg f env wf hall
      cfg.retryAttempts 0 (by omega)
    have hmap : (List.range (cfg.retryAttempts - 1)).map
          (fun i => 2 ^ (0 + 1 + i) * 1000)
        = (List.range (cfg.retryAttempts - 1)).map
            (fun i => 2 ^ (i + 1) * 1000) :=
      List.map_congr_left fun i _ => by
        rw [show 0 + 1 + i = i + 1 by omega]
    have hs : (processSinglePDFWithRetry cfg f env wf).sleeps
        = (List.range (cfg.retryAttempts - 1)).map
            (fun i => 2 ^ (i + 1) * 1000) := by
      unfold processSinglePDFWithRetry
      rw [h]
      exact hmap
    exact ⟨hs, by rw [hs]; exact sleeps_sum_eq (cfg.retryAttempts - 1)⟩

/-- An environment whose archive is down: folder resolution throws on
every call. -/
def unreachableEnv : AttemptEnv :=
  { okEnv with folderResult := .error "ELO unreachable" }

/-- Witness for `c2_exponential_backoff`: with the default 3 attempts all
failing, the sleeps are 2000 ms and 4000 ms, summing to
`1000 · (2^1 + 2^2)`. -/
theorem c2_exponential_backoff_witness :
    (processSinglePDFWithRetry defaultConfig goodFile
        (fun _ => unreachableEnv) (fun _ => true)).sleeps = [2000, 4000]
    ∧ (processSinglePDFWithRetry defaultConfig goodFile
        (fun _ => unreachableEnv) (fun _ => true)).sleeps.sum
      = 1000 * ∑ k ∈ Finset.Icc 1 2, 2 ^ k := by
  have h := (c2_exponential_backoff defaultConfig goodFile
    (fun _ => unreachableEnv) (fun _ => true)).2.2 (fun k => rfl)
  refine ⟨?_, ?_⟩
  · rw [h.1]; decide
  · rw [h.2]; decide

/-- C7: when the workflow trigger fails even after exhausting its own two
attempts, the retry controller's outcome is unchanged — success flag and
target directory equal those of a run whose workflow always succeeds — and
a successful outcome still hands the file to the processed directory. -/
theorem c7_workflow_failure_nonfatal (cfg : Config) (f : FileInfo)
    (env : Nat → AttemptEnv) (wf : Nat → Bool) (s : String)
    (_hwf : (startWorkflowWithRetry wf).1 = .error s) :
    ((processSinglePDFWithRetry cfg f env wf).success
      = (processSinglePDFWithRetry cfg f env (fun _ => true)).success)
    ∧ ((processSinglePDFWithRetry cfg f env wf).movedTo
      = (processSinglePDFWithRetry cfg f env (fun _ => true)).movedTo)
    ∧ ((processSinglePDFWithRetry cfg f env wf).success = true →
      (processSinglePDFWithRetry cfg f env wf).movedTo
        = Dir.processedDir) := by
  have h := processGo_wf_irrelevant cfg.retryAttempts cfg f env wf
    (fun _ => true) cfg.retryAttempts 0
  exact ⟨h.1, h.2.1,
    processGo_success_processed cfg.retryAttempts cfg f env wf
      cfg.retryAttempts 0⟩

/-- Witness for `c7_workflow_failure_nonfatal`: a good file, an all-ok
archive and a workflow start failing both its attempts still yield success
and the processed directory. -/
theorem c7_workflow_failure_nonfatal_witness :
    (processSinglePDFWithRetry defaultConfig goodFile (fun _ => okEnv)
        (fun _ => false)).success = true
    ∧ (processSinglePDFWithRetry defaultConfig goodFile (fun _ => okEnv)
        (fun _ => false)).movedTo = Dir.processedDir := by
  have h := c7_workflow_failure_nonfatal defaultConfig goodFile
    (fun _ => okEnv) (fun _ => false) "workflow start failed" rfl
  have hs : (processSinglePDFWithRetry defaultConfig goodFile
      (fun _ => okEnv) (fun _ => true)).success = true := by decide
  exact ⟨h.1.trans hs, h.2.2 (h.1.trans hs)⟩

/-- C10: when validation fails at processing time, every attempt fails
inside the transaction at the validation step — with an empty
archive-action trace, so no record is ever created — and after the retry
budget the file is handed to the error directory, not left in place. -/
theorem c10_validation_rechecked_every_attempt (cfg : Config) (f : FileInfo)
    (env : Nat → AttemptEnv) (wf : Nat → Bool)
    (hval : validatePDFFile cfg f = false) :
    (∀ k, importFileToELOWithValidation cfg f (env k)
        = (.error "File validation failed", []))
    ∧ (processSinglePDFWithRetry cfg f env wf).success = false
    ∧ (processSinglePDFWithRetry cfg f env wf).movedTo = Dir.errorDir := by
  have himp : ∀ k, importFileToELOWithValidation cfg f (env k)
      = (.error "File validation failed", []) := by
    intro k
    simp [importFileToELOWithValidation, hval]
  have hfail : ∀ k,
      importGood (importFileToELOWithValidation cfg f (env k)).1 = false := by
    intro k
    rw [himp k]
    rfl
  have h := processGo_allFail cfg.retryAttempts cfg f env wf hfail
    cfg.retryAttempts 0 (by omega)
  unfold processSinglePDFWithRetry
  rw [h]
  exact ⟨himp, rfl, rfl⟩

/-- A file that was scanned but has disappeared before processing. -/
def invalidFile : FileInfo :=
  { name := "gone.pdf".toList, fileExists := false, canRead := false
  , size := 0, headerBytes := none }

/-- Witness for `c10_validation_rechecked_every_attempt` at a file deleted
between scan and attempt. -/
theorem c10_validation_rechecked_witness :
    (processSinglePDFWithRetry defaultConfig invalidFile (fun _ => okEnv)
        (fun _ => true)).success = false
    ∧ (processSinglePDFWithRetry defaultConfig invalidFile (fun _ => okEnv)
        (fun _ => true)).movedTo = Dir.errorDir
    ∧ importFileToELOWithValidation defaultConfig invalidFile okEnv
        = (.error "File validation failed", []) := by
  have h := c10_validation_rechecked_every_attempt defaultConfig invalidFile
    (fun _ => okEnv) (fun _ => true) (by decide)
  exact ⟨h.2.1, h.2.2, h.1 0⟩

/-- The success-rate division of `logStatistics` (line 521),
`totalProcessed / (totalProcessed + totalErrors)` in JavaScript number
semantics: `none` models the `NaN` produced by `0 / 0` (the denominator
can only be zero when the numerator is too). -/
def jsSuccessRate (p e : Nat) : Option ℚ :=
  if p + e = 0 then none
  else some ((p : ℚ) / ((p : ℚ) + (e : ℚ)))

/-- Rounding `Math.round(rate * 100)`; `Math.round(NaN)` is `NaN`, kept as
`none`. -/
def successRateRounded (p e : Nat) : Option ℤ :=
  (jsSuccessRate p e).map (fun q => round (q * 100))

/-- The logged line `"Success rate: " + Math.round(...) + "%"`; JavaScript
string concatenation renders `NaN` as the text `NaN`. -/
def successRateLine (p e : Nat) : Str :=
  "Success rate: ".toList
    ++ (match successRateRounded p e with
        | none => "NaN".toList
        | some r => r.repr.toList)
    ++ "%".toList

/-- C9: with zero files ever processed the division is `0 / 0`; the
summary line reports `Success rate: NaN%` — an invalid value rather than
the `0%` / `n/a` the specification requires (though no exception is
thrown: the line is still produced). -/
theorem c9_zero_stats_rate_nan :
    successRateRounded 0 0 = none
    ∧ successRateLine 0 0 = "Success rate: NaN%".toList := by
  exact ⟨rfl, by decide⟩

end PDFImport
